import Mathlib

/-!
Shallow embedding of the GADM Global Administrative Boundaries Explorer client.

The repository has two client variants:
- an on-demand variant (src/unnamed/part_000 and the second half of
  src/unnamed/part_002) that queries a per-country GeoParquet file through
  DuckDB-WASM: `loadBoundaries(level)` issues a GROUP BY dissolve query and
  renders the resulting GeoJSON features with Leaflet;
- a tiled variant (src/js/app.js and src/unnamed/part_001) that adds
  PMTiles vector sources and line/fill layer pairs per administrative
  level to a MapLibre map: `addLevelLayer`, `setLayerVisibility`,
  `resetAdminLevels`, `handleCountryChange`.

This file embeds the data model and the operations of both variants:
raw parquet rows, the grouping key and filter of the dissolve query, the
feature construction with its per-row geometry parse fallback, the
DuckDB readiness polling loop, the asynchronous interleaving of
`loadBoundaries` calls, and the map source/layer state of the tiled
variant. Geometric union (ST_Union_Agg) is modeled abstractly: a
geometry is the list of primitive polygon identifiers it covers and the
union of a group is the concatenation of its members.
-/

/-- A raw row of a per-country GeoParquet file (on-demand variant).
The columns `NAME_0..NAME_5`, `TYPE_1..5`, `ENGTYPE_1..5`, `GID_1..5`
are nullable strings, modeled as level-indexed `Option String` fields;
`geometry` is the WKB polygon payload, modeled as the list of primitive
polygon identifiers it covers. -/
structure RawRow where
  NAME : Nat → Option String
  TYPE : Nat → Option String
  ENGTYPE : Nat → Option String
  GID : Nat → Option String
  geometry : List Nat

/-- The grouping key of the dissolve query in `loadBoundaries`
(src/unnamed/part_000 lines 260-272): `GROUP BY NAME_level, TYPE_level,
ENGTYPE_level, GID_level, NAME_0` and, when `level > 1`, also
`NAME_(level-1)`. The `parent` field is `none` when the level does not
select a parent column, and `some v` with the (nullable) column value
otherwise. -/
structure Key where
  name : Option String
  typ : Option String
  engType : Option String
  gid : Option String
  country : Option String
  parent : Option (Option String)
deriving DecidableEq, Repr

/-- The key of a raw row at a given level (the selected non-geometry
columns of the query in src/unnamed/part_000 lines 260-272). -/
def keyOf (level : Nat) (r : RawRow) : Key :=
  { name := r.NAME level
    typ := r.TYPE level
    engType := r.ENGTYPE level
    gid := r.GID level
    country := r.NAME 0
    parent := if 1 < level then some (r.NAME (level - 1)) else none }

/-- The WHERE clause of the dissolve query: `NAME_level IS NOT NULL AND
NAME_level != <empty string>` (src/unnamed/part_000 line 270). -/
def rowPasses (level : Nat) (r : RawRow) : Bool :=
  match r.NAME level with
  | none => false
  | some s => decide (s ≠ "")

/-- One row of the query result: the grouping key together with
`ST_Union_Agg` of the geometries of the group, modeled as the
concatenation of the member geometries. -/
structure ResultRow where
  key : Key
  geom : List Nat
deriving DecidableEq, Repr

/-- SQL semantics of the dissolve query of `loadBoundaries`
(src/unnamed/part_000 lines 260-275): filter rows by `rowPasses`, group
the survivors by `keyOf`, and aggregate each group geometry with
`ST_Union_Agg`. One result row per distinct key. -/
def runQuery (level : Nat) (rows : List RawRow) : List ResultRow :=
  let filtered := rows.filter (rowPasses level)
  ((filtered.map (keyOf level)).dedup).map (fun k =>
    { key := k
      geom := (filtered.filter (fun r => decide (keyOf level r = k))).flatMap RawRow.geometry })

/-- The `props` object built for each result row in `loadBoundaries`
(src/unnamed/part_000 lines 279-289). `parent` is only set when
`row.parent` is truthy in JavaScript, so a null or empty string parent
column leaves the property absent. -/
structure FeatureProps where
  name : Option String
  typ : Option String
  engType : Option String
  gid : Option String
  country : Option String
  level : Nat
  parent : Option String
deriving DecidableEq, Repr

/-- A GeoJSON feature of the produced FeatureCollection. -/
structure Feature where
  props : FeatureProps
  geometry : List Nat
deriving DecidableEq, Repr

/-- JavaScript truthiness of a nullable string: `null`, `undefined` and
the empty string are falsy. -/
def truthyString : Option String → Option String
  | none => none
  | some s => if s = "" then none else some s

/-- The `if (row.parent) props.parent = row.parent` step
(src/unnamed/part_000 lines 287-289): when the query selected no parent
column the row has no parent field; otherwise the property is set only
when the value is truthy. -/
def parentProp : Option (Option String) → Option String
  | none => none
  | some v => truthyString v

/-- The properties object of a feature, built from the grouping key of
its result row (src/unnamed/part_000 lines 279-289). -/
def mkProps (level : Nat) (k : Key) : FeatureProps :=
  { name := k.name
    typ := k.typ
    engType := k.engType
    gid := k.gid
    country := k.country
    level := level
    parent := parentProp k.parent }

/-- Feature construction for one result row (src/unnamed/part_000
lines 278-303), assuming its geometry JSON parses. -/
def mkFeature (level : Nat) (r : ResultRow) : Feature :=
  { props := mkProps level r.key
    geometry := r.geom }

/-- The `rows.map(...).filter(f => f !== null)` pipeline of
`loadBoundaries` (src/unnamed/part_000 lines 278-304): each result row
is turned into a feature, except that a row whose `geojson` string fails
`JSON.parse` yields `null` (inside a per-row try/catch) and is filtered
out. `ok r` models whether `JSON.parse(row.geojson)` succeeds; when it
does, the parsed geometry is the aggregated union that `ST_AsGeoJSON`
serialized. -/
def buildFeatures (level : Nat) (ok : ResultRow → Bool) (rows : List RawRow) : List Feature :=
  (runQuery level rows).filterMap (fun r => if ok r then some (mkFeature level r) else none)

/-- The warnings logged by the per-row catch branch
(`console.warn(<failed to parse geometry for>, row.name)`,
src/unnamed/part_000 line 295): one per result row whose geometry fails
to parse. -/
def parseWarnings (level : Nat) (ok : ResultRow → Bool) (rows : List RawRow) : List (Option String) :=
  ((runQuery level rows).filter (fun r => !ok r)).map (fun r => r.key.name)

/-- Poll interval of the DuckDB readiness loop in milliseconds
(`setTimeout(resolve, 500)`, src/unnamed/part_000 line 110). -/
def pollIntervalMs : Nat := 500

/-- Number of poll attempts of the readiness loop
(`for (let i = 0; i < 60; i++)`, src/unnamed/part_000 line 109). -/
def maxPollAttempts : Nat := 60

/-- The body of the readiness loop: `n` remaining attempts, each one
sleeping one poll interval and then sampling readiness at the next time
step `t`. `ready t` is the value of `duckDBReady && conn` after `t`
sleeps of `pollIntervalMs`. -/
def pollLoop (ready : Nat → Bool) : Nat → Nat → Bool
  | 0, _ => false
  | n + 1, t => if ready t then true else pollLoop ready n (t + 1)

/-- `waitForDuckDB` (src/unnamed/part_000 lines 105-115): return true at
once when already ready, otherwise poll up to `maxPollAttempts` times at
`pollIntervalMs` intervals and return false when the budget runs out. -/
def waitForDuckDB (ready : Nat → Bool) : Bool :=
  if ready 0 then true else pollLoop ready maxPollAttempts 1

/-- Outcome of the readiness prologue of `loadBoundaries`: either the
caller proceeds to issue the query, or it hides the loading indicator,
shows the retryable error message (the dialog offers a page refresh)
and returns. -/
inductive LoadOutcome
  | proceeded
  | errorShown
deriving DecidableEq, Repr

/-- The readiness prologue of `loadBoundaries` (src/unnamed/part_000
lines 238-246): `if (!duckDBReady || !conn)` await `waitForDuckDB`; on
false show the database-failed error and return, otherwise continue
with the query. -/
def loadBoundariesReadiness (ready : Nat → Bool) : LoadOutcome :=
  if ready 0 then LoadOutcome.proceeded
  else if waitForDuckDB ready then LoadOutcome.proceeded else LoadOutcome.errorShown

/-- Session state of the on-demand variant (globals of
src/unnamed/part_000): the selected country, the current level, and the
Leaflet boundary layer currently on the map, tagged by the level whose
geometry it shows. `loadingShown` mirrors the loading indicator. -/
structure ODState where
  currentCountry : Option String
  currentLevel : Option Nat
  boundaryLayer : Option Nat
  loadingShown : Bool
deriving DecidableEq, Repr

/-- Externally visible actions of the synchronous prefix of
`loadBoundaries`, used to state that the guarded no-op issues no query
and shows no indicator. -/
inductive ODAction
  | showLoading
  | issueQuery (level : Nat)
deriving DecidableEq, Repr

/-- The synchronous prefix of `loadBoundaries(level)`
(src/unnamed/part_000 lines 227-246 and src/unnamed/part_002 lines
616-625): the first statement is the guard `if (!currentCountry)
return;`; past it the function shows the loading indicator, sets
`currentLevel = level` and goes on to issue the query. -/
def loadBoundariesEntry (s : ODState) (level : Nat) : ODState × List ODAction :=
  match s.currentCountry with
  | none => (s, [])
  | some _ =>
      ({ s with loadingShown := true, currentLevel := some level },
       [ODAction.showLoading, ODAction.issueQuery level])

/-- One observable event of an asynchronous `loadBoundaries` run in the
on-demand variant. `start l` is the synchronous prefix (set
`currentLevel := l`, show the loading indicator, issue the query);
`resolve l` is the continuation after the query for level `l` resolves:
remove the existing boundary layer if any and install the freshly built
layer for level `l` (src/unnamed/part_000 lines 311-341). The
continuation performs no comparison between `l` and `currentLevel`:
there is no sequence or generation check in the source. -/
inductive Ev
  | start (l : Nat)
  | resolve (l : Nat)
deriving DecidableEq, Repr

/-- Effect of one event on the session state, mirroring the source: the
resolve branch unconditionally replaces the boundary layer by the
resolved level. -/
def stepEv (s : ODState) (e : Ev) : ODState :=
  match e with
  | Ev.start l =>
      match s.currentCountry with
      | none => s
      | some _ => { s with currentLevel := some l, loadingShown := true }
  | Ev.resolve l => { s with boundaryLayer := some l, loadingShown := false }

/-- Run an interleaving of `loadBoundaries` events on the single UI
thread. -/
def runSched (s : ODState) (evs : List Ev) : ODState :=
  evs.foldl stepEv s

/-- A session state of the on-demand variant with a country selected
and no boundaries loaded yet, as right after `handleCountryChange`
cleared the previous layer. -/
def odCountrySelected : ODState :=
  { currentCountry := some "Testland"
    currentLevel := none
    boundaryLayer := none
    loadingShown := false }

/-- Identifier of a MapLibre layer of the tiled variant. The source
strings `layer-line-<level>` and `layer-fill-<level>` are injective in
the kind and the level, so they are modeled structurally. -/
inductive LayerId
  | line (level : Nat)
  | fill (level : Nat)
deriving DecidableEq, Repr

/-- Paint state of the level-0 line layer in the tiled variant
(src/unnamed/part_001): either the unselected default from `STYLES[0]`
or the case expression highlighting the selected country
(src/unnamed/part_001 lines 259-270). -/
inductive Line0Paint
  | unselected
  | highlighted (country : String)
deriving DecidableEq, Repr

/-- A MapLibre layer definition as built by `addLevelLayer`
(src/unnamed/part_001 lines 96-151): id, the level of its `gadm-level`
source, the source layer name, layout visibility, the optional
`NAME_0 == country` filter, and the index into `STYLES` that the paint
properties were taken from. -/
structure LayerDef where
  id : LayerId
  sourceLevel : Nat
  sourceLayer : String
  visible : Bool
  filterCountry : Option String
  paintLevel : Nat
deriving DecidableEq, Repr

/-- The map style state of the tiled variant: the levels whose
`gadm-level<n>` vector source has been added, the ordered list of
layers, and the paint of the level-0 line layer. -/
structure MapState where
  sources : List Nat
  layers : List LayerDef
  line0Paint : Line0Paint
deriving DecidableEq, Repr

/-- `map.getSource` membership test for the `gadm-level<n>` source. -/
def hasSource (s : MapState) (n : Nat) : Bool :=
  s.sources.any (fun m => decide (m = n))

/-- `map.getLayer` membership test. -/
def hasLayer (s : MapState) (id : LayerId) : Bool :=
  s.layers.any (fun l => decide (l.id = id))

/-- Visibility of a layer when present. -/
def layerVisible (s : MapState) (id : LayerId) : Option Bool :=
  (s.layers.find? (fun l => decide (l.id = id))).map LayerDef.visible

/-- Country filter of a layer when present. -/
def layerFilter (s : MapState) (id : LayerId) : Option (Option String) :=
  (s.layers.find? (fun l => decide (l.id = id))).map LayerDef.filterCountry

/-- `map.removeLayer`: drop the layer with the given id. The source
guards each removal with `if (map.getLayer(id))`; removal of an absent
id is a no-op, so the guard is absorbed by the filter. -/
def removeLayer (s : MapState) (id : LayerId) : MapState :=
  { s with layers := s.layers.filter (fun l => !decide (l.id = id)) }

/-- `map.setLayoutProperty(id, visibility, v)` on one layer. -/
def setVisibilityOne (s : MapState) (id : LayerId) (v : Bool) : MapState :=
  { s with layers := s.layers.map (fun l => if l.id = id then { l with visible := v } else l) }

/-- `setLayerVisibility(level, isVisible)` (src/js/app.js lines 136-145
and src/unnamed/part_001 lines 155-165): set the layout visibility of
the line and fill layers of the level when they exist. -/
def setLayerVisibility (level : Nat) (v : Bool) (s : MapState) : MapState :=
  setVisibilityOne (setVisibilityOne s (LayerId.line level) v) (LayerId.fill level) v

/-- `map.addLayer(def)`: append at the end of the layer list. -/
def addLayerLast (s : MapState) (d : LayerDef) : MapState :=
  { s with layers := s.layers ++ [d] }

/-- Insert a layer definition before the first layer with the given id
(`map.addLayer(def, beforeId)`); appended at the end when the id is
absent. -/
def insertBefore (d : LayerDef) (bid : LayerId) : List LayerDef → List LayerDef
  | [] => [d]
  | l :: ls => if l.id = bid then d :: l :: ls else l :: insertBefore d bid ls

/-- The source layer name inside the tiles: `countries` for level 0 and
`admin<level>` otherwise (src/unnamed/part_001 line 104). -/
def sourceLayerName (level : Nat) : String :=
  if level = 0 then "countries" else String.append "admin" (Nat.repr level)

/-- The line layer definition built by `addLevelLayer`
(src/unnamed/part_001 lines 100-118): visibility from the argument,
paint from `STYLES[level]`, and the `NAME_0` filter exactly when
`level > 0` and a country is selected. -/
def lineLayerDef (cc : Option String) (level : Nat) (isVisible : Bool) : LayerDef :=
  { id := LayerId.line level
    sourceLevel := level
    sourceLayer := sourceLayerName level
    visible := isVisible
    filterCountry := if 0 < level then cc else none
    paintLevel := level }

/-- The fill layer definition built by `addLevelLayer`
(src/unnamed/part_001 lines 125-144). -/
def fillLayerDef (cc : Option String) (level : Nat) (isVisible : Bool) : LayerDef :=
  { id := LayerId.fill level
    sourceLevel := level
    sourceLayer := sourceLayerName level
    visible := isVisible
    filterCountry := if 0 < level then cc else none
    paintLevel := level }

/-- First guarded block of `addLevelLayer` (src/unnamed/part_001 lines
88-94): `if (!map.getSource(sourceId)) map.addSource(...)`. -/
def ensureSource (level : Nat) (s : MapState) : MapState :=
  if hasSource s level then s else { s with sources := s.sources ++ [level] }

/-- Second guarded block of `addLevelLayer` (src/unnamed/part_001 lines
97-120): `if (!map.getLayer(lineLayerId)) map.addLayer(layerDef)`. -/
def ensureLineLayer (cc : Option String) (level : Nat) (isVisible : Bool) (s : MapState) : MapState :=
  if hasLayer s (LayerId.line level) then s
  else addLayerLast s (lineLayerDef cc level isVisible)

/-- Third guarded block of `addLevelLayer` (src/unnamed/part_001 lines
123-151): `if (!map.getLayer(fillLayerId)) map.addLayer(fillDef,
lineLayerId)`, placing the fill below the line layer. -/
def ensureFillLayer (cc : Option String) (level : Nat) (isVisible : Bool) (s : MapState) : MapState :=
  if hasLayer s (LayerId.fill level) then s
  else { s with layers := insertBefore (fillLayerDef cc level isVisible) (LayerId.line level) s.layers }

/-- `addLevelLayer(level, isVisible)` (src/unnamed/part_001 lines
85-152, and src/js/app.js lines 81-133 which is the same function
without the country filter, recovered here with `cc = none`): add the
`gadm-level<level>` source unless present, add the line layer unless
present, then add the fill layer below the line layer unless present.
A source or layer that already exists is left untouched. `cc` is the
`currentCountry` global read by the function. -/
def addLevelLayer (cc : Option String) (level : Nat) (isVisible : Bool) (s : MapState) : MapState :=
  ensureFillLayer cc level isVisible (ensureLineLayer cc level isVisible (ensureSource level s))

/-- The removal loop shared by `resetAdminLevels` and
`handleCountryChange` of src/unnamed/part_001 (lines 177-182 and
274-279): for each level 1..5 remove the fill layer then the line
layer. -/
def removeAdminLayers (s : MapState) : MapState :=
  (List.range 5).foldl
    (fun st i => removeLayer (removeLayer st (LayerId.fill (i + 1))) (LayerId.line (i + 1))) s

/-- The layer portion of `handleCountryChange` for a found country in
src/unnamed/part_001 (lines 256-279): highlight the level-0 outline of
the selected country and remove the admin layers 1..5 so that they are
recreated with the new filter on demand. -/
def handleCountryLayers (c : String) (s : MapState) : MapState :=
  removeAdminLayers
    (if hasLayer s (LayerId.line 0) then { s with line0Paint := Line0Paint.highlighted c } else s)

/-- `resetAdminLevels` of src/unnamed/part_001 (lines 168-183): remove
the layers of levels 1..5 entirely. -/
def resetAdminLevelsB (s : MapState) : MapState :=
  removeAdminLayers s

/-- The reset-view click handler of src/unnamed/part_001 (lines
213-225): clear the selection, remove the admin layers, and restore the
level-0 paint to the unselected default when the layer exists. -/
def resetViewB (s : MapState) : MapState :=
  let s1 := resetAdminLevelsB s
  if hasLayer s1 (LayerId.line 0) then { s1 with line0Paint := Line0Paint.unselected } else s1

/-- `resetAdminLevels` of src/js/app.js (lines 242-250): set the
visibility of levels 1..5 to none and of level 0 to visible. No layer
is removed. -/
def resetAdminLevelsA (s : MapState) : MapState :=
  setLayerVisibility 0 true
    ((List.range 5).foldl (fun st i => setLayerVisibility (i + 1) false st) s)

/-- A parse oracle under which every geometry JSON parses. -/
def okAll : ResultRow → Bool := fun _ => true

/-- A level-1 row of a small concrete dataset: province Alpha of
Testland, first fragment. -/
def rowA1 : RawRow :=
  { NAME := fun n => if n = 0 then some "Testland" else if n = 1 then some "Alpha" else none
    TYPE := fun _ => some "Province"
    ENGTYPE := fun _ => some "Province"
    GID := fun _ => some "TST.1_1"
    geometry := [1, 2] }

/-- Second fragment of province Alpha: same grouping key as `rowA1`,
different geometry. -/
def rowA2 : RawRow :=
  { NAME := fun n => if n = 0 then some "Testland" else if n = 1 then some "Alpha" else none
    TYPE := fun _ => some "Province"
    ENGTYPE := fun _ => some "Province"
    GID := fun _ => some "TST.1_1"
    geometry := [3] }

/-- A second province with its own key. -/
def rowB1 : RawRow :=
  { NAME := fun n => if n = 0 then some "Testland" else if n = 1 then some "Beta" else none
    TYPE := fun _ => some "Province"
    ENGTYPE := fun _ => some "Province"
    GID := fun _ => some "TST.2_1"
    geometry := [4] }

/-- A small concrete dataset with two raw rows sharing one key. -/
def demoRows : List RawRow := [rowA1, rowA2, rowB1]

/-- A level-2 row whose parent column `NAME_1` holds the empty string:
its district name passes the filter while the parent value is falsy in
JavaScript. -/
def rowNoParent : RawRow :=
  { NAME := fun n =>
      if n = 0 then some "Testland"
      else if n = 1 then some ""
      else if n = 2 then some "Eastport" else none
    TYPE := fun _ => some "District"
    ENGTYPE := fun _ => some "District"
    GID := fun _ => some "TST.1.1_1"
    geometry := [7] }

/-- A level-2 row whose parent column `NAME_1` is a regular name. -/
def rowWithParent : RawRow :=
  { NAME := fun n =>
      if n = 0 then some "Testland"
      else if n = 1 then some "Alpha"
      else if n = 2 then some "Eastport" else none
    TYPE := fun _ => some "District"
    ENGTYPE := fun _ => some "District"
    GID := fun _ => some "TST.1.1_1"
    geometry := [8] }

/-- The idle session state of the on-demand variant: no country
selected. -/
def odIdle : ODState :=
  { currentCountry := none
    currentLevel := none
    boundaryLayer := none
    loadingShown := false }

/-- An engine readiness trace that never becomes ready. -/
def readyNever : Nat → Bool := fun _ => false

/-- The dissolved feature of the two Alpha fragments. -/
def featA : Feature := mkFeature 1 { key := keyOf 1 rowA1, geom := [1, 2, 3] }

/-- A parse oracle failing exactly on the Alpha group of the concrete
dataset. -/
def okDropA : ResultRow → Bool := fun r => decide (r.key ≠ keyOf 1 rowA1)

/-- The feature of the Beta group. -/
def featB : Feature := mkFeature 1 { key := keyOf 1 rowB1, geom := [4] }

/-- The level-2 feature of the concrete row with a regular parent. -/
def featP : Feature := mkFeature 2 { key := keyOf 2 rowWithParent, geom := [8] }

/-- The empty map style state. -/
def mapEmpty : MapState :=
  { sources := [], layers := [], line0Paint := Line0Paint.unselected }

/-- Counterexample to claim C5: a state in which the source and both
layers of level 1 already exist, with visibility none and no country
filter; calling `addLevelLayer` with visibility visible and a selected
country changes nothing at all — the filter, paint and visibility of the
existing layers are not updated to reflect the arguments. -/
def c5state : MapState :=
  { sources := [1]
    layers := [fillLayerDef none 1 false, lineLayerDef none 1 false]
    line0Paint := Line0Paint.unselected }

/-- Counterexample to claim C6: in the src/js/app.js tiled client a
reset only hides the admin layers. From a state where the level-1
layers exist and are visible and the level-0 paint is highlighted,
`resetAdminLevels` leaves the level-1 line layer present (merely
invisible) and leaves the highlight paint in place. -/
def c6state : MapState :=
  { sources := [0, 1]
    layers := [fillLayerDef none 0 true, lineLayerDef none 0 true,
               fillLayerDef (some "France") 1 true, lineLayerDef (some "France") 1 true]
    line0Paint := Line0Paint.highlighted "France" }

/-- A list whose image under `f` has no duplicates holds at most one
element of any `f`-fiber. -/
theorem countP_le_one_of_nodup_map {α β : Type} [DecidableEq β] (f : α → β) (k : β) :
    ∀ l : List α, (l.map f).Nodup → l.countP (fun x => decide (f x = k)) ≤ 1 := by
  intro l
  induction l with
  | nil => intro _; simp
  | cons a t ih =>
      intro h
      rw [List.map_cons, List.nodup_cons] at h
      rw [List.countP_cons]
      by_cases ha : f a = k
      · have ht : t.countP (fun x => decide (f x = k)) = 0 := by
          rw [List.countP_eq_zero]
          intro x hx
          simp only [decide_eq_true_eq]
          intro hfx
          exact h.1 (List.mem_map.mpr ⟨x, hx, by rw [hfx, ha]⟩)
        simp [ha, ht]
      · simp only [ha, decide_eq_true_eq, if_neg]
        simpa [ha] using ih h.2

/-- Claim C10: in the on-demand variant, `loadBoundaries(level)` with no
country selected returns at once through its first guard: the session
state is unchanged and no action (no loading indicator, no query, hence
no layer or map change and no error) is emitted; the same guard also
stops the `start` event of the interleaving model. -/
theorem c10_idle_noop (s : ODState) (level : Nat) (h : s.currentCountry = none) :
    loadBoundariesEntry s level = (s, []) ∧ stepEv s (Ev.start level) = s := by
  constructor
  · simp [loadBoundariesEntry, h]
  · simp [stepEv, h]

/-- Witness for C10 at the concrete idle state. -/
theorem c10_idle_noop_witness :
    loadBoundariesEntry odIdle 3 = (odIdle, []) ∧ stepEv odIdle (Ev.start 3) = odIdle :=
  c10_idle_noop odIdle 3 rfl

/-- Counterexample to claim C3: with a country selected, issue
`selectLevel(1)` then `selectLevel(2)` before the first query resolves;
when the level-2 query happens to resolve first, the level-1 result is
installed last and stays displayed, so the superseded level-1 result is
not discarded — there is no sequence or generation check. -/
theorem c3_counterexample :
    (runSched odCountrySelected
        [Ev.start 1, Ev.start 2, Ev.resolve 2, Ev.resolve 1]).boundaryLayer = some 1
    ∧ (runSched odCountrySelected
        [Ev.start 1, Ev.start 2, Ev.resolve 2, Ev.resolve 1]).boundaryLayer ≠ some 2 := by
  constructor
  · rfl
  · decide

/-- Claim C3 as amended: `loadBoundaries` performs no generation check;
whichever query resolves last determines the displayed geometry, so
after `selectLevel(1)` then `selectLevel(2)` the level-2 geometry is the
one displayed exactly when the level-1 query resolves before the level-2
query. -/
theorem c3_amended (s : ODState) (pre : List Ev) (l : Nat) :
    (runSched s (pre ++ [Ev.resolve l])).boundaryLayer = some l
    ∧ (runSched odCountrySelected
        [Ev.start 1, Ev.start 2, Ev.resolve 1, Ev.resolve 2]).boundaryLayer = some 2 := by
  constructor
  · rw [runSched, List.foldl_append]
    rfl
  · rfl

/-- The poll loop succeeds exactly when readiness holds at one of the
next `n` time steps. -/
theorem pollLoop_iff (ready : Nat → Bool) :
    ∀ n t, pollLoop ready n t = true ↔ ∃ j, j < n ∧ ready (t + j) = true := by
  intro n
  induction n with
  | zero => intro t; simp [pollLoop]
  | succ m ih =>
      intro t
      rw [pollLoop]
      by_cases h : ready t = true
      · simp only [h, if_true, true_iff]
        exact ⟨0, Nat.succ_pos m, by simpa using h⟩
      · rw [if_neg h, ih]
        constructor
        · rintro ⟨j, hj, hr⟩
          exact ⟨j + 1, by omega, by simpa [Nat.add_comm, Nat.add_assoc, Nat.add_left_comm] using hr⟩
        · rintro ⟨j, hj, hr⟩
          cases j with
          | zero => exact absurd (by simpa using hr) h
          | succ j' =>
              refine ⟨j', by omega, ?_⟩
              have : t + 1 + j' = t + (j' + 1) := by omega
              rw [this]
              exact hr

/-- `waitForDuckDB` succeeds exactly when readiness holds at some poll
attempt within the budget. -/
theorem waitForDuckDB_iff (ready : Nat → Bool) :
    waitForDuckDB ready = true ↔ ∃ i, i ≤ maxPollAttempts ∧ ready i = true := by
  rw [waitForDuckDB]
  by_cases h : ready 0 = true
  · simp only [h, if_true, true_iff]
    exact ⟨0, Nat.zero_le _, h⟩
  · rw [if_neg h, pollLoop_iff]
    constructor
    · rintro ⟨j, hj, hr⟩
      exact ⟨1 + j, by omega, hr⟩
    · rintro ⟨i, hi, hr⟩
      cases i with
      | zero => exact absurd hr h
      | succ i' =>
          refine ⟨i', by omega, ?_⟩
          have : 1 + i' = i' + 1 := by omega
          rw [this]
          exact hr

/-- Claim C7: a caller finding the engine not ready polls readiness at a
500 ms interval for at most 60 attempts (30 seconds in total); the poll
terminates with success exactly when readiness arrives within the
budget, in which case the caller proceeds with the query, and otherwise
the caller shows the retryable database error instead of hanging. -/
theorem c7_bounded_readiness (ready : Nat → Bool) :
    (waitForDuckDB ready = true ↔ ∃ i, i ≤ maxPollAttempts ∧ ready i = true)
    ∧ (loadBoundariesReadiness ready = LoadOutcome.proceeded
        ↔ ∃ i, i ≤ maxPollAttempts ∧ ready i = true)
    ∧ ((∀ i, i ≤ maxPollAttempts → ready i = false)
        → loadBoundariesReadiness ready = LoadOutcome.errorShown)
    ∧ pollIntervalMs * maxPollAttempts = 30000 := by
  refine ⟨waitForDuckDB_iff ready, ?_, ?_, rfl⟩
  · rw [loadBoundariesReadiness]
    by_cases h : ready 0 = true
    · simp only [h, if_true, true_iff]
      exact ⟨0, Nat.zero_le _, h⟩
    · rw [if_neg h]
      by_cases hw : waitForDuckDB ready = true
      · simp only [hw, if_true, true_iff]
        exact (waitForDuckDB_iff ready).mp hw
      · rw [if_neg hw]
        constructor
        · intro hh
          exact absurd hh (by decide)
        · intro hex
          exact absurd ((waitForDuckDB_iff ready).mpr hex) hw
  · intro hall
    have h0 : ¬ (ready 0 = true) := by
      rw [hall 0 (Nat.zero_le _)]
      exact Bool.false_ne_true
    have hw : ¬ (waitForDuckDB ready = true) := by
      intro hw
      obtain ⟨i, hi, hr⟩ := (waitForDuckDB_iff ready).mp hw
      rw [hall i hi] at hr
      exact Bool.false_ne_true hr
    rw [loadBoundariesReadiness, if_neg h0, if_neg hw]

/-- Witness for C7: with an engine that never becomes ready, the caller
ends with the retryable error rather than hanging. -/
theorem c7_bounded_readiness_witness :
    loadBoundariesReadiness readyNever = LoadOutcome.errorShown :=
  (c7_bounded_readiness readyNever).2.2.1 (fun _ _ => rfl)

/-- The keys of the query result are the deduplicated keys of the
filtered rows. -/
theorem runQuery_map_key (level : Nat) (rows : List RawRow) :
    (runQuery level rows).map ResultRow.key
      = ((rows.filter (rowPasses level)).map (keyOf level)).dedup := by
  simp only [runQuery, List.map_map]
  exact List.map_id _

/-- A member of the query result is determined by its key: the key comes
from a filtered row and the geometry is the union over its group. -/
theorem exists_of_mem_runQuery {level : Nat} {rows : List RawRow} {r : ResultRow}
    (h : r ∈ runQuery level rows) :
    r.key ∈ ((rows.filter (rowPasses level)).map (keyOf level)).dedup
    ∧ r.geom = ((rows.filter (rowPasses level)).filter
        (fun x => decide (keyOf level x = r.key))).flatMap RawRow.geometry := by
  simp only [runQuery] at h
  obtain ⟨k, hk, rfl⟩ := List.mem_map.mp h
  exact ⟨hk, rfl⟩

/-- Every key of the query result carries a non-null, non-empty name,
because the WHERE clause already excluded the other rows. -/
theorem key_name_truthy {level : Nat} {rows : List RawRow} {k : Key}
    (hk : k ∈ ((rows.filter (rowPasses level)).map (keyOf level)).dedup) :
    ∃ s : String, k.name = some s ∧ s ≠ "" := by
  rw [List.mem_dedup] at hk
  obtain ⟨x, hx, rfl⟩ := List.mem_map.mp hk
  have hp : rowPasses level x = true := (List.mem_filter.mp hx).2
  cases hnm : x.NAME level with
  | none =>
      rw [rowPasses, hnm] at hp
      exact absurd hp (by decide)
  | some s =>
      rw [rowPasses, hnm] at hp
      refine ⟨s, ?_, of_decide_eq_true hp⟩
      simp [keyOf, hnm]

/-- A row whose key has a truthy name passes the WHERE clause. -/
theorem rowPasses_of_keyOf_eq {level : Nat} {x : RawRow} {k : Key} {s : String}
    (hkey : keyOf level x = k) (hname : k.name = some s) (hs : s ≠ "") :
    rowPasses level x = true := by
  have hx : x.NAME level = some s := by
    rw [← hkey] at hname
    simpa [keyOf] using hname
  simp [rowPasses, hx, hs]

/-- For a key of the result, restricting its group to filtered rows is
no restriction: every raw row with that key passes the filter, since the
name is part of the key. -/
theorem filter_key_eq {level : Nat} {rows : List RawRow} {k : Key}
    (hk : ∃ s, k.name = some s ∧ s ≠ "") :
    (rows.filter (rowPasses level)).filter (fun x => decide (keyOf level x = k))
      = rows.filter (fun x => decide (keyOf level x = k)) := by
  obtain ⟨s, hname, hs⟩ := hk
  rw [List.filter_filter]
  apply List.filter_congr
  intro x _
  by_cases hkey : keyOf level x = k
  · simp [hkey, rowPasses_of_keyOf_eq hkey hname hs]
  · simp [hkey]

/-- Claim C1: the aggregation produces at most one result row per
distinct grouping-key tuple; the geometry of each one is the geometric
union of all raw rows sharing that tuple; and every feature of the
returned collection is the feature of one of these rows. -/
theorem c1_dissolve_unique (level : Nat) (rows : List RawRow) (ok : ResultRow → Bool)
    (_hlo : 1 ≤ level) (_hhi : level ≤ 5) :
    (∀ k : Key, (runQuery level rows).countP (fun r => decide (r.key = k)) ≤ 1)
    ∧ (∀ r ∈ runQuery level rows,
        r.geom = (rows.filter (fun x => decide (keyOf level x = r.key))).flatMap RawRow.geometry)
    ∧ (∀ f ∈ buildFeatures level ok rows,
        ∃ r ∈ runQuery level rows, f = mkFeature level r) := by
  refine ⟨?_, ?_, ?_⟩
  · intro k
    apply countP_le_one_of_nodup_map ResultRow.key k
    rw [runQuery_map_key]
    exact List.nodup_dedup _
  · intro r hr
    obtain ⟨hk, hg⟩ := exists_of_mem_runQuery hr
    rw [hg, filter_key_eq (key_name_truthy hk)]
  · intro f hf
    rw [buildFeatures] at hf
    obtain ⟨r, hr, hfr⟩ := List.mem_filterMap.mp hf
    refine ⟨r, hr, ?_⟩
    by_cases hok : ok r
    · rw [if_pos hok] at hfr
      exact (Option.some.inj hfr).symm
    · rw [if_neg hok] at hfr
      exact absurd hfr (by simp)

/-- Witness for C1 on the concrete dataset: the key of the two Alpha
fragments indexes at most one result row. -/
theorem c1_dissolve_unique_witness :
    (runQuery 1 demoRows).countP (fun r => decide (r.key = keyOf 1 rowA1)) ≤ 1 :=
  (c1_dissolve_unique 1 demoRows okAll (by decide) (by decide)).1 (keyOf 1 rowA1)

/-- Claim C2: every feature of the returned collection has a name that
is neither null nor empty, and rows failing the name filter are excluded
from the aggregation (dropping them beforehand changes nothing). -/
theorem c2_name_nonempty (level : Nat) (rows : List RawRow) (ok : ResultRow → Bool) :
    (∀ f ∈ buildFeatures level ok rows, f.props.name ≠ none ∧ f.props.name ≠ some "")
    ∧ buildFeatures level ok rows = buildFeatures level ok (rows.filter (rowPasses level)) := by
  constructor
  · intro f hf
    rw [buildFeatures] at hf
    obtain ⟨r, hr, hfr⟩ := List.mem_filterMap.mp hf
    obtain ⟨s, hname, hs⟩ := key_name_truthy (exists_of_mem_runQuery hr).1
    have hfprops : f.props.name = r.key.name := by
      by_cases hok : ok r
      · rw [if_pos hok] at hfr
        rw [← Option.some.inj hfr]
        rfl
      · rw [if_neg hok] at hfr
        exact absurd hfr (by simp)
    rw [hfprops, hname]
    exact ⟨by simp, by simpa using hs⟩
  · rw [buildFeatures, buildFeatures]
    simp [runQuery, List.filter_filter]

/-- Witness for C2 at the concrete dataset. -/
theorem c2_name_nonempty_witness :
    featA.props.name ≠ none ∧ featA.props.name ≠ some "" :=
  (c2_name_nonempty 1 demoRows okAll).1 featA (by decide)

/-- The length of a keep-if pipeline over a list is the count of kept
elements. -/
theorem length_filterMap_ite {α β : Type} (p : α → Bool) (g : α → β) :
    ∀ l : List α, (l.filterMap (fun a => if p a then some (g a) else none)).length = l.countP p := by
  intro l
  induction l with
  | nil => rfl
  | cons a t ih =>
      by_cases h : p a
      · simp [List.filterMap_cons, h, List.countP_cons, ih]
      · simp [List.filterMap_cons, h, List.countP_cons, ih]

/-- Elements kept plus elements dropped add up to the whole list. -/
theorem countP_add_countP_not {α : Type} (p : α → Bool) :
    ∀ l : List α, l.countP p + l.countP (fun a => !p a) = l.length := by
  intro l
  induction l with
  | nil => rfl
  | cons a t ih =>
      by_cases h : p a
      · simp [List.countP_cons, h, ← ih]
        omega
      · simp [List.countP_cons, h, ← ih]
        omega

/-- Claim C8: a per-row geometry parse failure drops only that row, with
one warning logged per dropped row; every row whose geometry parses is
converted to a feature, and with no failure every result row is
converted — the batch itself never fails. -/
theorem c8_parse_failure_dropped (level : Nat) (ok : ResultRow → Bool) (rows : List RawRow) :
    (buildFeatures level ok rows).length + (parseWarnings level ok rows).length
        = (runQuery level rows).length
    ∧ (∀ r ∈ runQuery level rows, ok r = true
        → mkFeature level r ∈ buildFeatures level ok rows)
    ∧ buildFeatures level okAll rows = (runQuery level rows).map (mkFeature level) := by
  refine ⟨?_, ?_, ?_⟩
  · rw [buildFeatures, parseWarnings, length_filterMap_ite, List.length_map,
      ← List.countP_eq_length_filter, countP_add_countP_not]
  · intro r hr hok
    rw [buildFeatures]
    exact List.mem_filterMap.mpr ⟨r, hr, by rw [if_pos hok]⟩
  · rw [buildFeatures]
    simp only [okAll, if_true]
    exact congrFun (List.filterMap_eq_map (mkFeature level)) (runQuery level rows)

/-- Witness for C8: when the Alpha geometry fails to parse, the Beta row
is still converted and returned. -/
theorem c8_parse_failure_dropped_witness :
    featB ∈ buildFeatures 1 okDropA demoRows :=
  (c8_parse_failure_dropped 1 okDropA demoRows).2.1
    { key := keyOf 1 rowB1, geom := [4] } (by decide) (by decide)

/-- Counterexample to claim C9: at level 2 (greater than 1) a group
whose parent column `NAME_1` is the empty string yields a feature with
no parent property, because the source guards the assignment with
JavaScript truthiness; so the parent property is not present whenever
the level exceeds 1. -/
theorem c9_counterexample :
    1 < 2
    ∧ (buildFeatures 2 okAll [rowNoParent]).length = 1
    ∧ ∀ f ∈ buildFeatures 2 okAll [rowNoParent], f.props.parent = none := by
  decide

/-- Claim C9 as amended: the parent property is present exactly when the
requested level exceeds 1 and the group value of `NAME_(level-1)` is a
non-null, non-empty string; when present it equals that value. -/
theorem c9_parent_truthy (level : Nat) (rows : List RawRow) (ok : ResultRow → Bool) :
    ∀ f ∈ buildFeatures level ok rows,
      (level ≤ 1 → f.props.parent = none)
      ∧ (∀ p : String, f.props.parent = some p →
          1 < level ∧ p ≠ "" ∧ ∃ r ∈ rows, rowPasses level r = true
            ∧ f.props = mkProps level (keyOf level r) ∧ r.NAME (level - 1) = some p)
      ∧ (∀ r : RawRow, 1 < level → f.props = mkProps level (keyOf level r)
          → f.props.parent = truthyString (r.NAME (level - 1))) := by
  intro f hf
  rw [buildFeatures] at hf
  obtain ⟨r, hr, hfr⟩ := List.mem_filterMap.mp hf
  have hfeat : f = mkFeature level r := by
    by_cases hok : ok r
    · rw [if_pos hok] at hfr
      exact (Option.some.inj hfr).symm
    · rw [if_neg hok] at hfr
      exact absurd hfr (by simp)
  have hk := (exists_of_mem_runQuery hr).1
  rw [List.mem_dedup] at hk
  obtain ⟨x, hx, hkey⟩ := List.mem_map.mp hk
  have hparent : f.props.parent = parentProp (keyOf level x).parent := by
    rw [hfeat, mkFeature, mkProps, ← hkey]
  refine ⟨?_, ?_, ?_⟩
  · intro hle
    rw [hparent, keyOf]
    simp only [if_neg (by omega : ¬ 1 < level)]
    rfl
  · intro p hp
    rw [hparent, keyOf] at hp
    by_cases hl : 1 < level
    · simp only [if_pos hl] at hp
      cases hnm : x.NAME (level - 1) with
      | none =>
          rw [hnm] at hp
          exact absurd hp (by simp [parentProp, truthyString])
      | some s =>
          rw [hnm] at hp
          by_cases hse : s = ""
          · rw [hse] at hp
            exact absurd hp (by simp [parentProp, truthyString])
          · have hps : s = p := by
              have := hp
              simp only [parentProp, truthyString, if_neg hse] at this
              exact Option.some.inj this
            refine ⟨hl, by rw [← hps]; exact hse, x, (List.mem_filter.mp hx).1,
              (List.mem_filter.mp hx).2, ?_, by rw [← hps]; exact hnm⟩
            rw [hfeat, mkFeature, hkey]
    · simp only [if_neg hl] at hp
      exact absurd hp (by simp [parentProp])
  · intro r' hl hprops
    rw [hprops, mkProps, keyOf]
    simp only [if_pos hl]
    rfl

/-- Witness for the amended C9: the parent Alpha of the concrete level-2
feature comes from the `NAME_1` column of its raw row. -/
theorem c9_parent_truthy_witness :
    1 < 2 ∧ "Alpha" ≠ "" ∧ ∃ r ∈ [rowWithParent], rowPasses 2 r = true
      ∧ featP.props = mkProps 2 (keyOf 2 r) ∧ r.NAME (2 - 1) = some "Alpha" :=
  (c9_parent_truthy 2 [rowWithParent] okAll featP (by decide)).2.1 "Alpha" (by decide)

/-- Layer lookup only depends on the layer list. -/
theorem hasLayer_congr {s t : MapState} (h : s.layers = t.layers) (id : LayerId) :
    hasLayer s id = hasLayer t id := by
  simp [hasLayer, h]

/-- Layer lookup as membership of the id list. -/
theorem hasLayer_iff {s : MapState} {id : LayerId} :
    hasLayer s id = true ↔ id ∈ s.layers.map LayerDef.id := by
  simp [hasLayer, List.any_eq_true, List.mem_map]

/-- An inserted layer is a member of the result. -/
theorem mem_insertBefore_self (d : LayerDef) (bid : LayerId) :
    ∀ l : List LayerDef, d ∈ insertBefore d bid l := by
  intro l
  induction l with
  | nil => simp [insertBefore]
  | cons a t ih =>
      rw [insertBefore]
      by_cases h : a.id = bid
      · simp [h]
      · simp only [if_neg h]
        exact List.mem_cons_of_mem a ih

/-- Insertion preserves the previous members. -/
theorem mem_insertBefore_of_mem (d x : LayerDef) (bid : LayerId) :
    ∀ l : List LayerDef, x ∈ l → x ∈ insertBefore d bid l := by
  intro l
  induction l with
  | nil => intro h; exact absurd h (List.not_mem_nil x)
  | cons a t ih =>
      intro hx
      rw [insertBefore]
      by_cases h : a.id = bid
      · simp only [if_pos h]
        exact List.mem_cons_of_mem d hx
      · simp only [if_neg h]
        rcases List.mem_cons.mp hx with rfl | hxt
        · exact List.mem_cons_self x _
        · exact List.mem_cons_of_mem a (ih hxt)

/-- Any member of an insertion is the inserted layer or a previous
member. -/
theorem mem_of_mem_insertBefore {d x : LayerDef} {bid : LayerId} :
    ∀ {l : List LayerDef}, x ∈ insertBefore d bid l → x = d ∨ x ∈ l := by
  intro l
  induction l with
  | nil =>
      intro h
      rw [insertBefore] at h
      rcases List.mem_singleton.mp h with rfl
      exact Or.inl rfl
  | cons a t ih =>
      intro h
      rw [insertBefore] at h
      by_cases hb : a.id = bid
      · rw [if_pos hb] at h
        rcases List.mem_cons.mp h with rfl | h2
        · exact Or.inl rfl
        · exact Or.inr h2
      · rw [if_neg hb] at h
        rcases List.mem_cons.mp h with rfl | h2
        · exact Or.inr (List.mem_cons_self x t)
        · rcases ih h2 with hd | ht
          · exact Or.inl hd
          · exact Or.inr (List.mem_cons_of_mem a ht)

/-- A Bool search through an insertion checks the inserted layer and the
previous members. -/
theorem any_insertBefore (d : LayerDef) (bid : LayerId) (q : LayerDef → Bool) :
    ∀ l : List LayerDef, (insertBefore d bid l).any q = (q d || l.any q) := by
  intro l
  induction l with
  | nil => simp [insertBefore]
  | cons a t ih =>
      rw [insertBefore]
      by_cases h : a.id = bid
      · simp [h]
      · simp only [if_neg h, List.any_cons, ih]
        rw [Bool.or_left_comm]

/-- Insertion of a fresh id preserves distinctness of the id list. -/
theorem nodup_map_id_insertBefore (d : LayerDef) (bid : LayerId) :
    ∀ l : List LayerDef, (l.map LayerDef.id).Nodup → d.id ∉ l.map LayerDef.id →
      ((insertBefore d bid l).map LayerDef.id).Nodup := by
  intro l
  induction l with
  | nil => intro _ _; simp [insertBefore]
  | cons a t ih =>
      intro hnd hni
      rw [List.map_cons, List.nodup_cons] at hnd
      rw [List.map_cons, List.mem_cons] at hni
      push_neg at hni
      rw [insertBefore]
      by_cases h : a.id = bid
      · rw [if_pos h]
        simp only [List.map_cons, List.nodup_cons, List.mem_cons]
        refine ⟨?_, hnd.1, hnd.2⟩
        push_neg
        exact ⟨fun he => hni.1 he, hni.2⟩
      · rw [if_neg h]
        simp only [List.map_cons, List.nodup_cons]
        constructor
        · intro hmem
          obtain ⟨x, hx, hxid⟩ := List.mem_map.mp hmem
          rcases mem_of_mem_insertBefore hx with rfl | hxt
          · exact hni.1 hxid
          · exact hnd.1 (List.mem_map.mpr ⟨x, hxt, hxid⟩)
        · exact ih hnd.2 hni.2

/-- Searching the id list after dropping one id: the dropped id is gone,
other ids are found as before. -/
theorem anyId_filter (id id' : LayerId) :
    ∀ L : List LayerDef,
      ((L.filter (fun l => !decide (l.id = id))).any (fun l => decide (l.id = id')))
        = if id' = id then false else L.any (fun l => decide (l.id = id')) := by
  intro L
  induction L with
  | nil => by_cases h : id' = id <;> simp [h]
  | cons a t ih =>
      rw [List.filter_cons]
      by_cases ha : a.id = id
      · rw [if_neg (by simp [ha])]
        rw [ih]
        by_cases h : id' = id
        · simp [h]
        · simp only [if_neg h, List.any_cons]
          have hne : decide (a.id = id') = false := by
            rw [decide_eq_false_iff_not]
            rw [ha]
            intro hc
            exact h hc.symm
          rw [hne, Bool.false_or]
      · rw [if_pos (by simp [ha])]
        rw [List.any_cons, ih]
        by_cases h : id' = id
        · have hne : decide (a.id = id') = false := by
            rw [decide_eq_false_iff_not, h]
            exact ha
          simp [h, hne, ha]
        · simp [h]

/-- Removing one layer id: lookup of that id fails afterwards, lookups
of other ids are unchanged. -/
theorem hasLayer_removeLayer (s : MapState) (id id' : LayerId) :
    hasLayer (removeLayer s id) id' = if id' = id then false else hasLayer s id' := by
  simp only [removeLayer, hasLayer]
  exact anyId_filter id id' s.layers

/-- Source lookup only depends on the source list. -/
theorem hasSource_congr {s t : MapState} (h : s.sources = t.sources) (n : Nat) :
    hasSource s n = hasSource t n := by
  simp [hasSource, h]

/-- Adding a source leaves the layers unchanged. -/
theorem ensureSource_layers (level : Nat) (s : MapState) :
    (ensureSource level s).layers = s.layers := by
  rw [ensureSource]
  split <;> rfl

/-- After the first block the source of the level exists. -/
theorem hasSource_ensureSource (level : Nat) (s : MapState) :
    hasSource (ensureSource level s) level = true := by
  rw [ensureSource]
  by_cases h : hasSource s level = true
  · rw [if_pos h]
    exact h
  · rw [if_neg h]
    simp [hasSource, List.any_append]

/-- An existing source is left untouched. -/
theorem ensureSource_of_hasSource {level : Nat} {s : MapState}
    (h : hasSource s level = true) : ensureSource level s = s := by
  rw [ensureSource, if_pos h]

/-- The first block never duplicates a source. -/
theorem ensureSource_sources_nodup {level : Nat} {s : MapState} (h : s.sources.Nodup) :
    (ensureSource level s).sources.Nodup := by
  rw [ensureSource]
  by_cases hh : hasSource s level = true
  · rw [if_pos hh]
    exact h
  · rw [if_neg hh]
    refine h.append (List.nodup_singleton level) ?_
    rw [List.disjoint_singleton]
    intro hm
    refine hh ?_
    simp only [hasSource, List.any_eq_true, decide_eq_true_eq]
    exact ⟨level, hm, rfl⟩

/-- The second block leaves the sources unchanged. -/
theorem ensureLineLayer_sources (cc : Option String) (level : Nat) (vis : Bool) (s : MapState) :
    (ensureLineLayer cc level vis s).sources = s.sources := by
  rw [ensureLineLayer]
  split <;> rfl

/-- After the second block the line layer of the level exists. -/
theorem hasLayer_ensureLineLayer_self (cc : Option String) (level : Nat) (vis : Bool)
    (s : MapState) : hasLayer (ensureLineLayer cc level vis s) (LayerId.line level) = true := by
  rw [ensureLineLayer]
  by_cases h : hasLayer s (LayerId.line level) = true
  · rw [if_pos h]
    exact h
  · rw [if_neg h]
    simp only [addLayerLast, hasLayer, List.any_append, List.any_cons, List.any_nil]
    rw [Bool.or_eq_true]
    exact Or.inr (by rw [Bool.or_eq_true]; exact Or.inl (decide_eq_true rfl))

/-- The second block does not affect lookups of other layer ids. -/
theorem hasLayer_ensureLineLayer_other {id : LayerId} (cc : Option String) (level : Nat)
    (vis : Bool) (s : MapState) (hne : id ≠ LayerId.line level) :
    hasLayer (ensureLineLayer cc level vis s) id = hasLayer s id := by
  rw [ensureLineLayer]
  by_cases h : hasLayer s (LayerId.line level) = true
  · rw [if_pos h]
  · rw [if_neg h]
    simp only [addLayerLast, hasLayer, List.any_append, List.any_cons, List.any_nil]
    have hd : decide ((lineLayerDef cc level vis).id = id) = false :=
      decide_eq_false (fun hc => hne hc.symm)
    rw [hd]
    simp

/-- An existing line layer is left untouched. -/
theorem ensureLineLayer_of_hasLayer {cc : Option String} {level : Nat} {vis : Bool}
    {s : MapState} (h : hasLayer s (LayerId.line level) = true) :
    ensureLineLayer cc level vis s = s := by
  rw [ensureLineLayer, if_pos h]

/-- The second block never duplicates a layer id. -/
theorem ensureLineLayer_nodup {cc : Option String} {level : Nat} {vis : Bool} {s : MapState}
    (h : (s.layers.map LayerDef.id).Nodup) :
    ((ensureLineLayer cc level vis s).layers.map LayerDef.id).Nodup := by
  rw [ensureLineLayer]
  by_cases hh : hasLayer s (LayerId.line level) = true
  · rw [if_pos hh]
    exact h
  · rw [if_neg hh]
    simp only [addLayerLast, List.map_append, List.map_cons, List.map_nil]
    refine h.append (List.nodup_singleton _) ?_
    rw [List.disjoint_singleton]
    intro hm
    exact hh (hasLayer_iff.mpr hm)

/-- The third block leaves the sources unchanged. -/
theorem ensureFillLayer_sources (cc : Option String) (level : Nat) (vis : Bool) (s : MapState) :
    (ensureFillLayer cc level vis s).sources = s.sources := by
  rw [ensureFillLayer]
  split <;> rfl

/-- After the third block the fill layer of the level exists. -/
theorem hasLayer_ensureFillLayer_self (cc : Option String) (level : Nat) (vis : Bool)
    (s : MapState) : hasLayer (ensureFillLayer cc level vis s) (LayerId.fill level) = true := by
  rw [ensureFillLayer]
  by_cases h : hasLayer s (LayerId.fill level) = true
  · rw [if_pos h]
    exact h
  · rw [if_neg h]
    simp only [hasLayer]
    rw [any_insertBefore]
    rw [Bool.or_eq_true]
    exact Or.inl (decide_eq_true rfl)

/-- The third block preserves existing layer lookups. -/
theorem hasLayer_ensureFillLayer_mono {cc : Option String} {level : Nat} {vis : Bool}
    {s : MapState} {id : LayerId} (h : hasLayer s id = true) :
    hasLayer (ensureFillLayer cc level vis s) id = true := by
  rw [ensureFillLayer]
  by_cases hh : hasLayer s (LayerId.fill level) = true
  · rw [if_pos hh]
    exact h
  · rw [if_neg hh]
    simp only [hasLayer] at h ⊢
    rw [any_insertBefore, h, Bool.or_true]

/-- An existing fill layer is left untouched. -/
theorem ensureFillLayer_of_hasLayer {cc : Option String} {level : Nat} {vis : Bool}
    {s : MapState} (h : hasLayer s (LayerId.fill level) = true) :
    ensureFillLayer cc level vis s = s := by
  rw [ensureFillLayer, if_pos h]

/-- The third block never duplicates a layer id. -/
theorem ensureFillLayer_nodup {cc : Option String} {level : Nat} {vis : Bool} {s : MapState}
    (h : (s.layers.map LayerDef.id).Nodup) :
    ((ensureFillLayer cc level vis s).layers.map LayerDef.id).Nodup := by
  rw [ensureFillLayer]
  by_cases hh : hasLayer s (LayerId.fill level) = true
  · rw [if_pos hh]
    exact h
  · rw [if_neg hh]
    refine nodup_map_id_insertBefore _ _ _ h ?_
    intro hm
    exact hh (hasLayer_iff.mpr hm)

/-- A second identical call to `addLevelLayer` finds everything present
and changes nothing. -/
theorem addLevelLayer_idem (cc : Option String) (level : Nat) (vis : Bool) (s : MapState) :
    addLevelLayer cc level vis (addLevelLayer cc level vis s) = addLevelLayer cc level vis s := by
  have hsrc : hasSource (addLevelLayer cc level vis s) level = true := by
    rw [addLevelLayer]
    rw [hasSource_congr (ensureFillLayer_sources cc level vis
      (ensureLineLayer cc level vis (ensureSource level s))) level]
    rw [hasSource_congr (ensureLineLayer_sources cc level vis (ensureSource level s)) level]
    exact hasSource_ensureSource level s
  have hline : hasLayer (addLevelLayer cc level vis s) (LayerId.line level) = true := by
    rw [addLevelLayer]
    exact hasLayer_ensureFillLayer_mono (hasLayer_ensureLineLayer_self cc level vis _)
  have hfill : hasLayer (addLevelLayer cc level vis s) (LayerId.fill level) = true := by
    rw [addLevelLayer]
    exact hasLayer_ensureFillLayer_self cc level vis _
  conv_lhs => rw [addLevelLayer]
  rw [ensureSource_of_hasSource hsrc, ensureLineLayer_of_hasLayer hline,
    ensureFillLayer_of_hasLayer hfill]

/-- Claim C4: `addLevelLayer` is idempotent — a second call with the
same arguments from the same map state changes nothing, so sources,
layers and visible state equal those after a single call — and it keeps
layer ids and sources duplicate-free: at most one source and at most one
line/fill layer pair exist per level. -/
theorem c4_addLevelLayer_idempotent (cc : Option String) (level : Nat) (vis : Bool)
    (s : MapState) (hids : (s.layers.map LayerDef.id).Nodup) (hsrcs : s.sources.Nodup) :
    addLevelLayer cc level vis (addLevelLayer cc level vis s) = addLevelLayer cc level vis s
    ∧ ((addLevelLayer cc level vis s).layers.map LayerDef.id).Nodup
    ∧ (addLevelLayer cc level vis s).sources.Nodup
    ∧ (∀ id : LayerId,
        (addLevelLayer cc level vis s).layers.countP (fun l => decide (l.id = id)) ≤ 1)
    ∧ (∀ n : Nat, (addLevelLayer cc level vis s).sources.countP (fun m => decide (m = n)) ≤ 1) := by
  have hnd : ((addLevelLayer cc level vis s).layers.map LayerDef.id).Nodup := by
    rw [addLevelLayer]
    apply ensureFillLayer_nodup
    apply ensureLineLayer_nodup
    rw [ensureSource_layers]
    exact hids
  have hnds : (addLevelLayer cc level vis s).sources.Nodup := by
    rw [addLevelLayer, ensureFillLayer_sources, ensureLineLayer_sources]
    exact ensureSource_sources_nodup hsrcs
  refine ⟨addLevelLayer_idem cc level vis s, hnd, hnds, ?_, ?_⟩
  · intro id
    exact countP_le_one_of_nodup_map LayerDef.id id _ hnd
  · intro n
    exact countP_le_one_of_nodup_map (fun m => m) n _ (by simpa using hnds)

/-- Witness for C4 from the empty map state. -/
theorem c4_addLevelLayer_idempotent_witness :
    addLevelLayer (some "Testland") 2 true (addLevelLayer (some "Testland") 2 true mapEmpty)
      = addLevelLayer (some "Testland") 2 true mapEmpty :=
  (c4_addLevelLayer_idempotent (some "Testland") 2 true mapEmpty (by decide) (by decide)).1

/-- The removal loop unrolled: fill then line, for each level 1..5. -/
theorem removeAdminLayers_eq (s : MapState) :
    removeAdminLayers s =
      removeLayer (removeLayer (removeLayer (removeLayer (removeLayer (removeLayer
        (removeLayer (removeLayer (removeLayer (removeLayer s
          (LayerId.fill 1)) (LayerId.line 1))
          (LayerId.fill 2)) (LayerId.line 2))
          (LayerId.fill 3)) (LayerId.line 3))
          (LayerId.fill 4)) (LayerId.line 4))
          (LayerId.fill 5)) (LayerId.line 5) := rfl

/-- After the removal loop, no admin layer of levels 1..5 remains. -/
theorem hasLayer_removeAdminLayers (s : MapState) (i : Nat) (h1 : 1 ≤ i) (h5 : i ≤ 5) :
    hasLayer (removeAdminLayers s) (LayerId.line i) = false
    ∧ hasLayer (removeAdminLayers s) (LayerId.fill i) = false := by
  rw [removeAdminLayers_eq]
  interval_cases i <;> simp [hasLayer_removeLayer]

/-- The removal loop leaves the level-0 layers alone. -/
theorem hasLayer_removeAdminLayers_zero (s : MapState) :
    hasLayer (removeAdminLayers s) (LayerId.line 0) = hasLayer s (LayerId.line 0)
    ∧ hasLayer (removeAdminLayers s) (LayerId.fill 0) = hasLayer s (LayerId.fill 0) := by
  rw [removeAdminLayers_eq]
  constructor <;> simp [hasLayer_removeLayer]

/-- The removal loop does not touch the level-0 paint. -/
theorem removeAdminLayers_line0Paint (s : MapState) :
    (removeAdminLayers s).line0Paint = s.line0Paint := rfl

/-- Both reset-view branches produce the layer list of the removal
loop. -/
theorem resetViewB_layers (s : MapState) :
    (resetViewB s).layers = (removeAdminLayers s).layers := by
  simp only [resetViewB, resetAdminLevelsB]
  split <;> rfl

/-- Counterexample theorem for claim C5. -/
theorem c5_counterexample :
    addLevelLayer (some "France") 1 true c5state = c5state
    ∧ layerVisible c5state (LayerId.line 1) = some false
    ∧ layerFilter c5state (LayerId.line 1) = some none := by
  decide

/-- Claim C5 as amended: when the source of a level exists it is not
recreated, and when its layers exist `addLevelLayer` leaves the whole
map state unchanged — it updates nothing in place. The current country
selection reaches the layers through `handleCountryChange`, which
removes the layers of levels 1..5 so that a later `addLevelLayer`
recreates them with the new filter; visibility is changed by the
separate `setLayerVisibility`, which sets the layout visibility of the
line and fill layers of the level. -/
theorem c5_existing_layers_untouched (cc : Option String) (level : Nat) (vis : Bool)
    (s : MapState) (hsrc : hasSource s level = true)
    (hline : hasLayer s (LayerId.line level) = true)
    (hfill : hasLayer s (LayerId.fill level) = true) :
    addLevelLayer cc level vis s = s
    ∧ (∀ c : String, ∀ i : Nat, 1 ≤ i → i ≤ 5 →
        hasLayer (handleCountryLayers c s) (LayerId.line i) = false
        ∧ hasLayer (handleCountryLayers c s) (LayerId.fill i) = false)
    ∧ (∀ l ∈ (setLayerVisibility level vis s).layers,
        (l.id = LayerId.line level → l.visible = vis)
        ∧ (l.id = LayerId.fill level → l.visible = vis)) := by
  refine ⟨?_, ?_, ?_⟩
  · rw [addLevelLayer, ensureSource_of_hasSource hsrc, ensureLineLayer_of_hasLayer hline,
      ensureFillLayer_of_hasLayer hfill]
  · intro c i h1 h5
    exact hasLayer_removeAdminLayers _ i h1 h5
  · intro l hl
    simp only [setLayerVisibility, setVisibilityOne, List.map_map, List.mem_map,
      Function.comp] at hl
    obtain ⟨x, _, rfl⟩ := hl
    constructor
    · intro hid
      by_cases hfy : (if x.id = LayerId.line level then { x with visible := vis } else x).id
          = LayerId.fill level
      · rw [if_pos hfy]
      · rw [if_neg hfy] at hid ⊢
        by_cases hlx : x.id = LayerId.line level
        · rw [if_pos hlx]
        · rw [if_neg hlx] at hid ⊢
          exact absurd hid hlx
    · intro hid
      by_cases hfy : (if x.id = LayerId.line level then { x with visible := vis } else x).id
          = LayerId.fill level
      · rw [if_pos hfy]
      · rw [if_neg hfy] at hid ⊢
        exact absurd hid hfy

/-- Witness for the amended C5: on the concrete existing state the call
is the identity. -/
theorem c5_existing_layers_untouched_witness :
    addLevelLayer none 1 false c5state = c5state :=
  (c5_existing_layers_untouched none 1 false c5state (by decide) (by decide) (by decide)).1

/-- Counterexample theorem for claim C6. -/
theorem c6_counterexample :
    hasLayer (resetAdminLevelsA c6state) (LayerId.line 1) = true
    ∧ layerVisible (resetAdminLevelsA c6state) (LayerId.line 1) = some false
    ∧ (resetAdminLevelsA c6state).line0Paint = Line0Paint.highlighted "France" := by
  decide

/-- Claim C6 as amended: in the src/unnamed/part_001 tiled client the
reset-view action removes the line and fill layers of every level 1..5
entirely, leaves the level-0 layers present, and restores the level-0
paint to the unselected default; the src/js/app.js variant instead only
sets the visibility of levels 1..5 to none and level 0 to visible,
leaving all layers in place. -/
theorem c6_reset_removes_admin (s : MapState) (i : Nat) (h1 : 1 ≤ i) (h5 : i ≤ 5) :
    hasLayer (resetViewB s) (LayerId.line i) = false
    ∧ hasLayer (resetViewB s) (LayerId.fill i) = false
    ∧ hasLayer (resetViewB s) (LayerId.line 0) = hasLayer s (LayerId.line 0)
    ∧ hasLayer (resetViewB s) (LayerId.fill 0) = hasLayer s (LayerId.fill 0)
    ∧ (hasLayer s (LayerId.line 0) = true
        → (resetViewB s).line0Paint = Line0Paint.unselected) := by
  refine ⟨?_, ?_, ?_, ?_, ?_⟩
  · rw [hasLayer_congr (resetViewB_layers s)]
    exact (hasLayer_removeAdminLayers s i h1 h5).1
  · rw [hasLayer_congr (resetViewB_layers s)]
    exact (hasLayer_removeAdminLayers s i h1 h5).2
  · rw [hasLayer_congr (resetViewB_layers s)]
    exact (hasLayer_removeAdminLayers_zero s).1
  · rw [hasLayer_congr (resetViewB_layers s)]
    exact (hasLayer_removeAdminLayers_zero s).2
  · intro h0
    have h0r : hasLayer (removeAdminLayers s) (LayerId.line 0) = true := by
      rw [(hasLayer_removeAdminLayers_zero s).1]
      exact h0
    simp only [resetViewB, resetAdminLevelsB]
    rw [if_pos h0r]

/-- Witness for the amended C6 at the concrete state and level 3. -/
theorem c6_reset_removes_admin_witness :
    hasLayer (resetViewB c6state) (LayerId.line 3) = false :=
  (c6_reset_removes_admin c6state 3 (by decide) (by decide)).1
